import Mathlib

/-!
Verification of the inventory-game simulation engine.

The repository has two variants of the engine:
* `src/app.py` — the configurable lost-sales engine (place-order handler,
  demand normalization from CSV upload, seeded demand generation, reset and
  regenerate actions).  Quantities are Python ints, embedded as `Int`;
  costs are embedded in `ℚ`.
* `src/inventory_game.py` — a fixed-parameter variant whose submit-order
  handler keeps a signed running inventory that may go negative.

All definitions below are transcribed from those sources.
-/

namespace InvGame

/-- Cost parameters held in `st.session_state.params` (src/app.py lines 23-28). -/
structure Params where
  days : Nat
  product_cost : ℚ
  holding_rate : ℚ
  shortage_cost : ℚ
  deriving Repr, DecidableEq

/-- One row of `st.session_state.records` as appended by the place-order
handler (src/app.py lines 151-162). -/
structure DayRecord where
  day : Nat
  order : Int
  demand : Int
  sales : Int
  shortage : Int
  inv_end : Int
  purchase_cost : ℚ
  holding_cost : ℚ
  shortage_cost : ℚ
  day_cost : ℚ
  deriving Repr, DecidableEq

/-- The simulation part of the session state: current day (1-based),
starting inventory of the current day, and the ledger of completed days
(src/app.py lines 19-21). -/
structure EngineState where
  day : Nat
  inv_start : Int
  records : List DayRecord
  deriving Repr, DecidableEq

/-- Initial simulation state set by `init_state` (src/app.py lines 19-21). -/
def initState : EngineState :=
  { day := 1, inv_start := 0, records := [] }

/-- Function `holding_cost_per_day` (src/app.py lines 48-49). -/
def holding_cost_per_day (product_cost holding_rate : ℚ) : ℚ :=
  (product_cost * holding_rate) / 365

/-- The place-order handler (src/app.py lines 129-166).  The game-loop guard
`st.session_state.day <= days` makes the order form unavailable once the day
counter passes the horizon; an `advance` attempted then is rejected and the
state is untouched, which we render as `Except.error`.  Inside the guard the
handler reveals today's demand, computes sales, shortage, ending inventory and
the itemized costs, appends the record, carries the ending inventory into the
next day's starting inventory and increments the day counter. -/
def placeOrder (p : Params) (dem : List Int) (st : EngineState) (order_qty : Int) :
    Except String EngineState :=
  if st.day ≤ p.days then
    let today_demand := dem.getD (st.day - 1) 0
    let inv_before_sales := st.inv_start + order_qty
    let sales := min inv_before_sales today_demand
    let shortage_units := max 0 (today_demand - inv_before_sales)
    let inv_end := inv_before_sales - sales
    let purchase_cost := (order_qty : ℚ) * p.product_cost
    let holding_cost := (inv_end : ℚ) * holding_cost_per_day p.product_cost p.holding_rate
    let shortage_penalty := (shortage_units : ℚ) * p.shortage_cost
    let day_cost := purchase_cost + holding_cost + shortage_penalty
    Except.ok
      { day := st.day + 1
        inv_start := inv_end
        records := st.records ++
          [{ day := st.day, order := order_qty, demand := today_demand,
             sales := sales, shortage := shortage_units, inv_end := inv_end,
             purchase_cost := purchase_cost, holding_cost := holding_cost,
             shortage_cost := shortage_penalty, day_cost := day_cost }] }
  else
    Except.error "game complete: no further orders accepted"

/-- Iterate the place-order handler over a list of order quantities; a
rejected call leaves the state unchanged, exactly as the guard does. -/
def runOrders (p : Params) (dem : List Int) (st : EngineState) :
    List Int → EngineState
  | [] => st
  | q :: qs =>
      match placeOrder p dem st q with
      | Except.ok st' => runOrders p dem st' qs
      | Except.error _ => runOrders p dem st qs

/-- A full playthrough from the initial state. -/
def runGame (p : Params) (dem : List Int) (orders : List Int) : EngineState :=
  runOrders p dem initState orders

/-- Total cost `float(df["day_cost"].sum())`: the reported total cost is the sum of the
per-day costs over the ledger (src/app.py line 189). -/
def totalCost (records : List DayRecord) : ℚ :=
  (records.map (fun r => r.day_cost)).sum

/-- Column `df["cum_cost"] = df["day_cost"].cumsum()` (src/app.py line 171):
running cumulative cost column, starting from accumulator `acc`. -/
def cumCost (acc : ℚ) : List DayRecord → List ℚ
  | [] => []
  | r :: rs => (acc + r.day_cost) :: cumCost (acc + r.day_cost) rs

/-- Demand-length normalization performed by the CSV upload handler
(src/app.py lines 94-102): a short series is padded by repeating
`dser[-1] if len(dser) > 0 else 0`; a long series is truncated to the first
`days` values; an exact-length series is used as-is. -/
def normalizeDemand (days : Nat) (dser : List Int) : List Int :=
  if dser.length < days then
    dser ++ List.replicate (days - dser.length) (dser.getLastD 0)
  else if dser.length > days then
    dser.take days
  else
    dser

/-- Model of the seeded NumPy generator used by `ensure_demand`
(src/app.py lines 44-45): `np.random.default_rng(seed)` is a deterministic
function of the integer seed, and `rng.integers(low, high+1, size=days)`
draws `days` integers from the inclusive interval `[low, high]` because the
exclusive upper bound is `high + 1`.  The PCG64 bit stream is modelled by a
concrete deterministic integer stream; the reduction of each raw draw into
the interval preserves the inclusive bounds and the determinism in
`(seed, low, high, days)`, which are the properties under verification. -/
def rngNext (s : Nat) : Nat :=
  (6364136223846793005 * s + 1442695040888963407) % 2 ^ 64

/-- The `i`-th raw value of the stream seeded with `seed`. -/
def rngStream (seed : Nat) : Nat → Nat
  | 0 => rngNext seed
  | n + 1 => rngNext (rngStream seed n)

/-- Reduction of a raw draw into the inclusive interval `[low, high]`
(the bound passed to `rng.integers` is `high + 1`, so the interval has
`high - low + 1` values). -/
def draw (low high x : Nat) : Nat :=
  low + x % (high - low + 1)

/-- The demand sequence produced in generated mode for a fixed
`(seed, low, high, days)` tuple (src/app.py lines 44-46). -/
def genDemand (seed low high days : Nat) : List Int :=
  (List.range days).map fun i => ((draw low high (rngStream seed i) : Nat) : Int)

/-- The whole session state of src/app.py: simulation fields, resolved demand
(`None` until set), parameters, and the generator settings kept in
`st.session_state.seed / rand_low / rand_high` (src/app.py lines 15-28, 74-76). -/
structure GameState where
  day : Nat
  inv_start : Int
  records : List DayRecord
  demand : Option (List Int)
  params : Params
  seed : Nat
  rand_low : Nat
  rand_high : Nat
  deriving Repr, DecidableEq

/-- Function `set_demand_from_series` (src/app.py lines 35-36). -/
def set_demand_from_series (st : GameState) (series : List Int) : GameState :=
  { st with demand := some series }

/-- Function `reset_game` (src/app.py lines 30-33): back to day 1, empty inventory,
empty ledger; nothing else is touched. -/
def reset_game (st : GameState) : GameState :=
  { st with day := 1, inv_start := 0, records := [] }

/-- Function `ensure_demand` (src/app.py lines 38-46): when no demand is set, generate
it from the stored seed and bounds for the configured number of days;
otherwise leave the state alone. -/
def ensure_demand (st : GameState) : GameState :=
  match st.demand with
  | none =>
      set_demand_from_series st
        (genDemand st.seed st.rand_low st.rand_high st.params.days)
  | some _ => st

/-- The "Regenerate Demand" button handler (src/app.py lines 83-85): clear
the demand and reset the game; the next script run re-resolves demand via
`ensure_demand`. -/
def regenerate_demand (st : GameState) : GameState :=
  reset_game { st with demand := none }

/-- The CSV upload branch after the `demand` column has been coerced to ints
(src/app.py lines 94-103): normalize the length and store the result as the
session demand. -/
def handleUpload (st : GameState) (dser : List Int) : GameState :=
  set_demand_from_series st (normalizeDemand st.params.days dser)

end InvGame

namespace IG

/-- Constants of the fixed-parameter variant (src/inventory_game.py lines 7-11). -/
def TOTAL_DAYS : Nat := 30

/-- Constant `PRODUCT_COST = 100` (src/inventory_game.py line 8). -/
def PRODUCT_COST : ℚ := 100

/-- Constant `HOLDING_COST_RATE = 0.2` (src/inventory_game.py line 9). -/
def HOLDING_COST_RATE : ℚ := 2 / 10

/-- Constant `SHORTAGE_COST = 20` (src/inventory_game.py line 10). -/
def SHORTAGE_COST : ℚ := 20

/-- Constant `HOLDING_COST_PER_DAY = (PRODUCT_COST * HOLDING_COST_RATE) / 365`
(src/inventory_game.py line 11). -/
def HOLDING_COST_PER_DAY : ℚ := (PRODUCT_COST * HOLDING_COST_RATE) / 365

/-- Session state of src/inventory_game.py (lines 21-31): day counter, the
signed running inventory, and the accumulated orders and costs. -/
structure State where
  day : Nat
  inventory : Int
  orders : List Int
  costs : List ℚ
  deriving Repr, DecidableEq

/-- Initial state (src/inventory_game.py lines 21-31). -/
def initState : State :=
  { day := 1, inventory := 0, orders := [], costs := [] }

/-- The Submit Order handler (src/inventory_game.py lines 46-65): inside the
day guard, `new_inventory = inventory + order_qty - demand` is signed and is
stored back as the next day's starting inventory; cost adds a holding charge
when it is positive and `abs(new_inventory) * SHORTAGE_COST` when negative. -/
def submitOrder (demands : List Int) (st : State) (order_qty : Int) : State :=
  if st.day ≤ TOTAL_DAYS then
    let demand := demands.getD (st.day - 1) 0
    let new_inventory := st.inventory + order_qty - demand
    let base := (order_qty : ℚ) * PRODUCT_COST
    let cost :=
      if new_inventory > 0 then base + (new_inventory : ℚ) * HOLDING_COST_PER_DAY
      else if new_inventory < 0 then base + ((|new_inventory| : Int) : ℚ) * SHORTAGE_COST
      else base
    { day := st.day + 1
      inventory := new_inventory
      orders := st.orders ++ [order_qty]
      costs := st.costs ++ [cost] }
  else
    st

end IG

namespace InvGame

/-- Shape of the state produced by a successful place-order call: the guard
held and the new state is exactly the record-appending update. -/
theorem placeOrder_ok_shape (p : Params) (dem : List Int) (st : EngineState)
    (q : Int) (st' : EngineState) :
    placeOrder p dem st q = Except.ok st' →
      st.day ≤ p.days ∧
      st' = { day := st.day + 1
              inv_start := st.inv_start + q - min (st.inv_start + q) (dem.getD (st.day - 1) 0)
              records := st.records ++
                [{ day := st.day, order := q, demand := dem.getD (st.day - 1) 0,
                   sales := min (st.inv_start + q) (dem.getD (st.day - 1) 0),
                   shortage := max 0 (dem.getD (st.day - 1) 0 - (st.inv_start + q)),
                   inv_end := st.inv_start + q - min (st.inv_start + q) (dem.getD (st.day - 1) 0),
                   purchase_cost := (q : ℚ) * p.product_cost,
                   holding_cost := ((st.inv_start + q - min (st.inv_start + q) (dem.getD (st.day - 1) 0) : Int) : ℚ) *
                     holding_cost_per_day p.product_cost p.holding_rate,
                   shortage_cost := ((max 0 (dem.getD (st.day - 1) 0 - (st.inv_start + q)) : Int) : ℚ) * p.shortage_cost,
                   day_cost := (q : ℚ) * p.product_cost +
                     ((st.inv_start + q - min (st.inv_start + q) (dem.getD (st.day - 1) 0) : Int) : ℚ) *
                       holding_cost_per_day p.product_cost p.holding_rate +
                     ((max 0 (dem.getD (st.day - 1) 0 - (st.inv_start + q)) : Int) : ℚ) * p.shortage_cost }] } := by
  intro h
  unfold placeOrder at h
  by_cases hle : st.day ≤ p.days
  · rw [if_pos hle] at h
    simp only [Except.ok.injEq] at h
    exact ⟨hle, h.symm⟩
  · rw [if_neg hle] at h
    exact absurd h (by simp)

/-- C1: every successful `advance(order_qty)` call in an Active state with
demand `d` for the current day appends one `DayRecord` whose fields are
computed as `available = starting_inventory + order_qty`,
`units_sold = min(available, d)`, `shortage_units = max(0, d - available)`
and `ending_inventory = available - units_sold`; consequently the record
satisfies the conservation law
`starting_inventory + order_qty = units_sold + ending_inventory`. -/
theorem advance_computes_fields_and_conserves (p : Params) (dem : List Int)
    (st st' : EngineState) (q : Int)
    (h : placeOrder p dem st q = Except.ok st') :
    ∃ r : DayRecord,
      st'.records = st.records ++ [r] ∧
      r.order = q ∧
      r.demand = dem.getD (st.day - 1) 0 ∧
      r.sales = min (st.inv_start + q) r.demand ∧
      r.shortage = max 0 (r.demand - (st.inv_start + q)) ∧
      r.inv_end = (st.inv_start + q) - r.sales ∧
      st.inv_start + r.order = r.sales + r.inv_end := by
  obtain ⟨-, hst'⟩ := placeOrder_ok_shape p dem st q st' h
  subst hst'
  refine ⟨_, rfl, rfl, rfl, rfl, rfl, rfl, ?_⟩
  dsimp only
  omega

/-- C1 witness: a concrete advance from the initial state with order 60
against demand 50. -/
theorem advance_computes_fields_and_conserves_witness :
    ∃ r : DayRecord,
      (EngineState.mk 2 10
        [DayRecord.mk 1 60 50 50 0 10 6000 (40/73) 0 (6000 + 40/73 + 0)]).records =
        initState.records ++ [r] ∧
      r.order = 60 ∧
      r.demand = [(50 : Int), 50, 50].getD (initState.day - 1) 0 ∧
      r.sales = min (initState.inv_start + 60) r.demand ∧
      r.shortage = max 0 (r.demand - (initState.inv_start + 60)) ∧
      r.inv_end = (initState.inv_start + 60) - r.sales ∧
      initState.inv_start + r.order = r.sales + r.inv_end :=
  advance_computes_fields_and_conserves
    ⟨3, 100, 1/5, 20⟩ [50, 50, 50] initState
    (EngineState.mk 2 10
      [DayRecord.mk 1 60 50 50 0 10 6000 (40/73) 0 (6000 + 40/73 + 0)]) 60
    (by norm_num [placeOrder, holding_cost_per_day, initState])

/-- A successful step leaves a non-negative starting inventory, and the new
record's ending inventory is exactly what is carried forward. -/
theorem placeOrder_carries_inv_end (p : Params) (dem : List Int)
    (st st' : EngineState) (q : Int)
    (h : placeOrder p dem st q = Except.ok st') :
    0 ≤ st'.inv_start ∧
    ∃ r : DayRecord, st'.records = st.records ++ [r] ∧ st'.inv_start = r.inv_end := by
  obtain ⟨-, hst'⟩ := placeOrder_ok_shape p dem st q st' h
  subst hst'
  refine ⟨?_, _, rfl, rfl⟩
  dsimp only
  omega

/-- Running any list of orders preserves non-negativity of the starting
inventory and of every ledger record's ending inventory. -/
theorem runOrders_nonneg (p : Params) (dem : List Int) :
    ∀ (orders : List Int) (st : EngineState),
      0 ≤ st.inv_start → (∀ r ∈ st.records, 0 ≤ r.inv_end) →
      0 ≤ (runOrders p dem st orders).inv_start ∧
      ∀ r ∈ (runOrders p dem st orders).records, 0 ≤ r.inv_end := by
  intro orders
  induction orders with
  | nil => intro st h1 h2; exact ⟨h1, h2⟩
  | cons q qs ih =>
    intro st h1 h2
    cases hpo : placeOrder p dem st q with
    | ok st' =>
      simp only [runOrders, hpo]
      obtain ⟨hnn, r, hrec, hcarry⟩ := placeOrder_carries_inv_end p dem st st' q hpo
      refine ih st' hnn ?_
      intro r' hr'
      rw [hrec] at hr'
      rcases List.mem_append.mp hr' with hin | hin
      · exact h2 r' hin
      · rw [List.mem_singleton.mp hin]
        rw [← hcarry]
        exact hnn
    | error e =>
      simp only [runOrders, hpo]
      exact ih st h1 h2

/-- C2 (amended): in the src/app.py engine, for any demand sequence and any
sequence of non-negative order quantities, every completed day's ending
inventory is non-negative and only the (non-negative) ending inventory is
carried into the next day's starting inventory — unmet demand is lost.  The
src/inventory_game.py variant instead keeps a signed running inventory. -/
theorem no_backorders_app_engine (p : Params) (dem orders : List Int)
    (horders : ∀ q ∈ orders, 0 ≤ q) :
    (∀ r ∈ (runGame p dem orders).records, 0 ≤ r.inv_end) ∧
    0 ≤ (runGame p dem orders).inv_start ∧
    ∀ (st st' : EngineState) (q : Int), placeOrder p dem st q = Except.ok st' →
      ∃ r : DayRecord, st'.records = st.records ++ [r] ∧ st'.inv_start = r.inv_end := by
  have h := runOrders_nonneg p dem orders initState (by simp [initState]) (by simp [initState])
  exact ⟨h.2, h.1, fun st st' q hok => (placeOrder_carries_inv_end p dem st st' q hok).2⟩

/-- C2 witness: the engine run on demand `[50, 50]` with orders `[60, 0]`. -/
theorem no_backorders_app_engine_witness :
    ((∀ q ∈ [(60 : Int), 0], 0 ≤ q) ∧
     ((∀ r ∈ (runGame ⟨2, 100, 0, 20⟩ [50, 50] [60, 0]).records, 0 ≤ r.inv_end) ∧
      0 ≤ (runGame ⟨2, 100, 0, 20⟩ [50, 50] [60, 0]).inv_start ∧
      ∀ (st st' : EngineState) (q : Int),
        placeOrder ⟨2, 100, 0, 20⟩ [50, 50] st q = Except.ok st' →
        ∃ r : DayRecord, st'.records = st.records ++ [r] ∧ st'.inv_start = r.inv_end)) :=
  ⟨by decide, no_backorders_app_engine ⟨2, 100, 0, 20⟩ [50, 50] [60, 0] (by decide)⟩

/-- C2 counterexample: in src/inventory_game.py, ordering 0 against demand 50
on day 1 ends the day at inventory −50 (negative), and that deficit is the
starting inventory of day 2: ordering 50 against demand 0 on day 2 ends at 0,
not 50 — unmet demand was carried forward as a backorder. -/
theorem negative_inventory_carried_counterexample :
    (IG.submitOrder [50, 0] IG.initState 0).inventory = -50 ∧
    (IG.submitOrder [50, 0] IG.initState 0).inventory < 0 ∧
    (IG.submitOrder [50, 0] (IG.submitOrder [50, 0] IG.initState 0) 50).inventory = 0 := by
  decide

/-- Appending one record adds exactly its day cost to the ledger total. -/
theorem totalCost_append (l : List DayRecord) (r : DayRecord) :
    totalCost (l ++ [r]) = totalCost l + r.day_cost := by
  simp [totalCost]

/-- The last entry of the cumulative-cost column equals the accumulator plus
the ledger total: incremental accumulation never drifts from recomputation. -/
theorem cumCost_getLastD (l : List DayRecord) :
    ∀ acc : ℚ, (cumCost acc l).getLastD acc = acc + totalCost l := by
  induction l with
  | nil => intro acc; simp [cumCost, totalCost]
  | cons r rs ih =>
    intro acc
    have h := ih (acc + r.day_cost)
    simp only [cumCost, List.getLastD_cons, h, totalCost, List.map_cons, List.sum_cons]
    ring

/-- C3: every successful advance appends a record whose costs satisfy
`purchase_cost = order_qty * unit_cost`,
`holding_cost = ending_inventory * (unit_cost * holding_rate_annual / 365)`,
`shortage_cost = shortage_units * shortage_cost_per_unit`, and
`total_day_cost = purchase_cost + holding_cost + shortage_cost` exactly; the
reported total cost is exactly the sum of the per-day costs over the ledger,
and the last cumulative-cost entry agrees with that total exactly. -/
theorem day_costs_additive_total_exact (p : Params) (dem : List Int)
    (st st' : EngineState) (q : Int)
    (h : placeOrder p dem st q = Except.ok st') :
    ∃ r : DayRecord,
      st'.records = st.records ++ [r] ∧
      r.purchase_cost = (r.order : ℚ) * p.product_cost ∧
      r.holding_cost = (r.inv_end : ℚ) * holding_cost_per_day p.product_cost p.holding_rate ∧
      r.shortage_cost = (r.shortage : ℚ) * p.shortage_cost ∧
      r.day_cost = r.purchase_cost + r.holding_cost + r.shortage_cost ∧
      totalCost st'.records = totalCost st.records + r.day_cost ∧
      (cumCost 0 st'.records).getLastD 0 = totalCost st'.records := by
  obtain ⟨-, hst'⟩ := placeOrder_ok_shape p dem st q st' h
  subst hst'
  refine ⟨_, rfl, rfl, rfl, rfl, rfl, totalCost_append _ _, ?_⟩
  rw [cumCost_getLastD]
  ring

/-- C3 witness: day 1 with order 40 against demand 50 (shortage 10). -/
theorem day_costs_additive_total_exact_witness :
    ∃ r : DayRecord,
      (EngineState.mk 2 0
        [DayRecord.mk 1 40 50 40 10 0 4000 0 200 (4000 + 0 + 200)]).records =
        (EngineState.mk 1 0 []).records ++ [r] ∧
      r.purchase_cost = (r.order : ℚ) * (100 : ℚ) ∧
      r.holding_cost = (r.inv_end : ℚ) * holding_cost_per_day 100 (1/5) ∧
      r.shortage_cost = (r.shortage : ℚ) * (20 : ℚ) ∧
      r.day_cost = r.purchase_cost + r.holding_cost + r.shortage_cost ∧
      totalCost (EngineState.mk 2 0
        [DayRecord.mk 1 40 50 40 10 0 4000 0 200 (4000 + 0 + 200)]).records =
        totalCost (EngineState.mk 1 0 []).records + r.day_cost ∧
      (cumCost 0 (EngineState.mk 2 0
        [DayRecord.mk 1 40 50 40 10 0 4000 0 200 (4000 + 0 + 200)]).records).getLastD 0 =
        totalCost (EngineState.mk 2 0
          [DayRecord.mk 1 40 50 40 10 0 4000 0 200 (4000 + 0 + 200)]).records :=
  day_costs_additive_total_exact ⟨3, 100, 1/5, 20⟩ [50, 50, 50]
    (EngineState.mk 1 0 [])
    (EngineState.mk 2 0
      [DayRecord.mk 1 40 50 40 10 0 4000 0 200 (4000 + 0 + 200)]) 40
    (by norm_num [placeOrder, holding_cost_per_day])

/-- Running `n` orders with `day + n ≤ days + 1` advances the day counter by
`n` and appends `n` records: every one of those calls succeeded. -/
theorem runOrders_day_count (p : Params) (dem : List Int) :
    ∀ (orders : List Int) (st : EngineState),
      st.day + orders.length ≤ p.days + 1 →
      (runOrders p dem st orders).day = st.day + orders.length ∧
      (runOrders p dem st orders).records.length =
        st.records.length + orders.length := by
  intro orders
  induction orders with
  | nil => intro st _; simp [runOrders]
  | cons q qs ih =>
    intro st hbound
    have hle : st.day ≤ p.days := by
      simp only [List.length_cons] at hbound
      omega
    cases hpo : placeOrder p dem st q with
    | error e =>
      exfalso
      unfold placeOrder at hpo
      rw [if_pos hle] at hpo
      exact absurd hpo (by simp)
    | ok st' =>
      obtain ⟨-, hst'⟩ := placeOrder_ok_shape p dem st q st' hpo
      have hday : st'.day = st.day + 1 := by rw [hst']
      have hlen : st'.records.length = st.records.length + 1 := by rw [hst']; simp
      simp only [runOrders, hpo, List.length_cons]
      have hrest := ih st'
        (by rw [hday]; simp only [List.length_cons] at hbound; omega)
      rw [hrest.1, hrest.2, hday, hlen]
      omega

/-- C4: after exactly `horizon_days` successful advance calls from the
initial state the day counter is `horizon_days + 1` (the Complete state) and
the ledger holds one record per day; a further advance call is rejected with
the completion error, and running it leaves the state — in particular the
ledger — unchanged. -/
theorem terminal_rejection (p : Params) (dem orders : List Int) (q : Int)
    (horders : orders.length = p.days) :
    (runGame p dem orders).day = p.days + 1 ∧
    (runGame p dem orders).records.length = p.days ∧
    placeOrder p dem (runGame p dem orders) q =
      Except.error "game complete: no further orders accepted" ∧
    runOrders p dem (runGame p dem orders) [q] = runGame p dem orders := by
  have hcount := runOrders_day_count p dem orders initState
    (by simp [initState, horders]; omega)
  have hday : (runGame p dem orders).day = p.days + 1 := by
    rw [runGame, hcount.1]
    simp [initState, horders]
    omega
  have hlen : (runGame p dem orders).records.length = p.days := by
    rw [runGame, hcount.2]
    simp [initState, horders]
  have herr : placeOrder p dem (runGame p dem orders) q =
      Except.error "game complete: no further orders accepted" := by
    unfold placeOrder
    rw [if_neg (by omega)]
  exact ⟨hday, hlen, herr, by simp only [runOrders, herr]⟩

/-- C4 witness: a two-day horizon played to completion, then one more call. -/
theorem terminal_rejection_witness :
    (([( 3 : Int), 4].length = (2 : Nat)) ∧
     ((runGame ⟨2, 50, 0, 1⟩ [10, 10] [3, 4]).day = 2 + 1 ∧
      (runGame ⟨2, 50, 0, 1⟩ [10, 10] [3, 4]).records.length = 2 ∧
      placeOrder ⟨2, 50, 0, 1⟩ [10, 10] (runGame ⟨2, 50, 0, 1⟩ [10, 10] [3, 4]) 5 =
        Except.error "game complete: no further orders accepted" ∧
      runOrders ⟨2, 50, 0, 1⟩ [10, 10] (runGame ⟨2, 50, 0, 1⟩ [10, 10] [3, 4]) [5] =
        runGame ⟨2, 50, 0, 1⟩ [10, 10] [3, 4])) :=
  ⟨by decide, terminal_rejection ⟨2, 50, 0, 1⟩ [10, 10] [3, 4] 5 (by decide)⟩

/-- C5: for a non-empty external sequence of length `n`, normalization pads a
short sequence by repeating its last element `horizon_days − n` times,
truncates a long one to the first `horizon_days` elements, keeps an
exact-length one unchanged, and always returns length `horizon_days`. -/
theorem demand_normalization (days : Nat) (dser : List Int)
    (h : 0 < dser.length) :
    (dser.length < days →
      normalizeDemand days dser =
        dser ++ List.replicate (days - dser.length) (dser.getLastD 0)) ∧
    (days < dser.length → normalizeDemand days dser = dser.take days) ∧
    (dser.length = days → normalizeDemand days dser = dser) ∧
    (normalizeDemand days dser).length = days := by
  refine ⟨fun hlt => ?_, fun hgt => ?_, fun heq => ?_, ?_⟩
  · unfold normalizeDemand
    rw [if_pos hlt]
  · unfold normalizeDemand
    rw [if_neg (by omega), if_pos (by omega)]
  · unfold normalizeDemand
    rw [if_neg (by omega), if_neg (by omega)]
  · unfold normalizeDemand
    by_cases h1 : dser.length < days
    · rw [if_pos h1]
      simp only [List.length_append, List.length_replicate]
      omega
    · by_cases h2 : dser.length > days
      · rw [if_neg h1, if_pos h2]
        simp only [List.length_take]
        omega
      · rw [if_neg h1, if_neg h2]
        omega

/-- C5 witness: length 3 against horizons 5 (pad), 2 (truncate) and 3. -/
theorem demand_normalization_witness :
    (0 < [(1 : Int), 2, 3].length) ∧
    (([(1 : Int), 2, 3].length < 5 →
      normalizeDemand 5 [1, 2, 3] =
        [(1 : Int), 2, 3] ++
          List.replicate (5 - [(1 : Int), 2, 3].length) ([(1 : Int), 2, 3].getLastD 0)) ∧
     (5 < [(1 : Int), 2, 3].length → normalizeDemand 5 [1, 2, 3] = [(1 : Int), 2, 3].take 5) ∧
     ([(1 : Int), 2, 3].length = 5 → normalizeDemand 5 [1, 2, 3] = [1, 2, 3]) ∧
     (normalizeDemand 5 [(1 : Int), 2, 3]).length = 5) :=
  ⟨by decide, demand_normalization 5 [1, 2, 3] (by decide)⟩

/-- C6 counterexample: uploading an empty demand column over the session
state whose demand is `[7, 7, 7]` (horizon 3) does not report an error and
does not leave the existing sequence untouched: it replaces it with the
all-zero sequence `[0, 0, 0]`, because the pad value falls back to 0. -/
theorem empty_upload_counterexample :
    (handleUpload
        (GameState.mk 1 0 [] (some [7, 7, 7]) ⟨3, 100, 1/5, 20⟩ 42 30 100)
        []).demand = some [0, 0, 0] ∧
    (handleUpload
        (GameState.mk 1 0 [] (some [7, 7, 7]) ⟨3, 100, 1/5, 20⟩ 42 30 100)
        []).demand ≠ some [7, 7, 7] := by
  constructor
  · decide
  · decide

/-- C6 (amended): an empty external demand source is not treated as an
error: the pad value defaults to 0, so the upload handler replaces the
session demand with the all-zero sequence of length `horizon_days`. -/
theorem empty_upload_pads_zeros (st : GameState) :
    (handleUpload st []).demand = some (List.replicate st.params.days 0) := by
  unfold handleUpload set_demand_from_series normalizeDemand
  by_cases h : 0 < st.params.days
  · simp [h]
  · have h0 : st.params.days = 0 := by omega
    simp [h0]

/-- C7: generated-mode demand is deterministic: two resolutions from states
that agree on `(seed, low, high, horizon_days)` and have no demand set yet
produce identical sequences, namely the one determined by that tuple. -/
theorem generated_demand_deterministic (st1 st2 : GameState)
    (h1 : st1.demand = none) (h2 : st2.demand = none)
    (hs : st1.seed = st2.seed) (hl : st1.rand_low = st2.rand_low)
    (hh : st1.rand_high = st2.rand_high) (hd : st1.params.days = st2.params.days) :
    (ensure_demand st1).demand = (ensure_demand st2).demand ∧
    (ensure_demand st1).demand =
      some (genDemand st1.seed st1.rand_low st1.rand_high st1.params.days) := by
  simp only [ensure_demand, h1, h2, set_demand_from_series, hs, hl, hh, hd]
  exact ⟨trivial, trivial⟩

/-- C7 witness: two fresh sessions with seed 42, bounds [30, 100], horizon 3,
differing in every other field. -/
theorem generated_demand_deterministic_witness :
    (ensure_demand (GameState.mk 1 0 [] none ⟨3, 100, 1/5, 20⟩ 42 30 100)).demand =
      (ensure_demand (GameState.mk 7 9 [] none ⟨3, 1, 0, 0⟩ 42 30 100)).demand ∧
    (ensure_demand (GameState.mk 1 0 [] none ⟨3, 100, 1/5, 20⟩ 42 30 100)).demand =
      some (genDemand 42 30 100 3) :=
  generated_demand_deterministic
    (GameState.mk 1 0 [] none ⟨3, 100, 1/5, 20⟩ 42 30 100)
    (GameState.mk 7 9 [] none ⟨3, 1, 0, 0⟩ 42 30 100)
    rfl rfl rfl rfl rfl rfl

/-- C8: with bounds `low ≤ high`, generated demand has length
`horizon_days`, every element lies in the closed interval `[low, high]`
(the generator's exclusive bound is `high + 1`), and every value of the
interval — in particular both endpoints — is attainable by some raw draw. -/
theorem generated_demand_in_range (seed low high days : Nat) (h : low ≤ high) :
    (genDemand seed low high days).length = days ∧
    (∀ x ∈ genDemand seed low high days, (low : Int) ≤ x ∧ x ≤ (high : Int)) ∧
    (∀ t : Nat, low ≤ t → t ≤ high → ∃ x : Nat, draw low high x = t) := by
  refine ⟨by simp [genDemand], ?_, ?_⟩
  · intro x hx
    simp only [genDemand, List.mem_map, List.mem_range] at hx
    obtain ⟨i, -, hix⟩ := hx
    subst hix
    unfold draw
    have hmod : rngStream seed i % (high - low + 1) < high - low + 1 :=
      Nat.mod_lt _ (by omega)
    constructor
    · exact_mod_cast Nat.le_add_right low _
    · have hub : low + rngStream seed i % (high - low + 1) ≤ high := by omega
      exact_mod_cast hub
  · intro t hlt hth
    refine ⟨t - low, ?_⟩
    unfold draw
    rw [Nat.mod_eq_of_lt (by omega)]
    omega

/-- C8 witness: seed 42, bounds [30, 100], horizon 3. -/
theorem generated_demand_in_range_witness :
    ((30 : Nat) ≤ 100) ∧
    ((genDemand 42 30 100 3).length = 3 ∧
     (∀ x ∈ genDemand 42 30 100 3, (30 : Int) ≤ x ∧ x ≤ (100 : Int)) ∧
     (∀ t : Nat, 30 ≤ t → t ≤ 100 → ∃ x : Nat, draw 30 100 x = t)) :=
  ⟨by decide, generated_demand_in_range 42 30 100 3 (by decide)⟩

/-- C9: `reset_game` succeeds from any state: afterwards the day is 1, the
starting inventory is 0 and the ledger is empty, while the parameters, the
demand sequence and the generator settings are untouched. -/
theorem reset_game_spec (st : GameState) :
    (reset_game st).day = 1 ∧ (reset_game st).inv_start = 0 ∧
    (reset_game st).records = [] ∧ (reset_game st).params = st.params ∧
    (reset_game st).demand = st.demand ∧ (reset_game st).seed = st.seed ∧
    (reset_game st).rand_low = st.rand_low ∧
    (reset_game st).rand_high = st.rand_high :=
  ⟨rfl, rfl, rfl, rfl, rfl, rfl, rfl, rfl⟩

/-- C10: regenerating demand without changing the stored seed, bounds or
horizon reproduces the sequence it replaces: the button clears the demand
and resets the game, and the following `ensure_demand` re-derives the same
sequence from the same `(seed, low, high, days)` tuple. -/
theorem regenerate_demand_idempotent (st : GameState)
    (h : st.demand = some (genDemand st.seed st.rand_low st.rand_high st.params.days)) :
    (ensure_demand (regenerate_demand st)).demand =
      some (genDemand st.seed st.rand_low st.rand_high st.params.days) ∧
    (ensure_demand (regenerate_demand st)).demand = st.demand := by
  simp only [ensure_demand, regenerate_demand, reset_game, set_demand_from_series]
  exact ⟨trivial, h.symm⟩

/-- C10 witness: a mid-game session whose demand was generated from
`(42, 30, 100, 3)`; regenerating reproduces it. -/
theorem regenerate_demand_idempotent_witness :
    (ensure_demand (regenerate_demand
        (GameState.mk 2 5 [] (some (genDemand 42 30 100 3)) ⟨3, 100, 1/5, 20⟩ 42 30 100))).demand =
      some (genDemand 42 30 100 3) ∧
    (ensure_demand (regenerate_demand
        (GameState.mk 2 5 [] (some (genDemand 42 30 100 3)) ⟨3, 100, 1/5, 20⟩ 42 30 100))).demand =
      (GameState.mk 2 5 [] (some (genDemand 42 30 100 3)) ⟨3, 100, 1/5, 20⟩ 42 30 100).demand :=
  regenerate_demand_idempotent
    (GameState.mk 2 5 [] (some (genDemand 42 30 100 3)) ⟨3, 100, 1/5, 20⟩ 42 30 100)
    rfl

end InvGame
